import Mathlib

set_option maxRecDepth 100000

/-!
Verification of the httpd report generator (main.cpp of SimonCahill/httpdreportgenerator).

The development shallowly embeds the core of `main.cpp`:
  * the log-line parser `parseConnectionFromLine`,
  * the per-line aggregation loop `getConnectionAttempts`,
  * `main`'s merge of per-file group maps into `totalConnections`,
  * the status-code tallies and markdown cell rendering of `printUniqueIpStats`
    (`getSpacerStrings`, the per-status `switch`, the header-width branch).

Strings are embedded as `List Char` (the logs are ASCII byte strings).  `size_t`
values are embedded as `Nat` with explicit wrap-around `% 2 ^ 64` where the C++
code relies on it (`std::string::npos + 1` wrapping to `0`), because the parser's
offset arithmetic deliberately exploits exactly that behaviour.
-/

/-- Byte strings of the C++ code, embedded as lists of characters. -/
abbrev Str : Type := List Char

/-- `std::string::npos` on a 64-bit platform. -/
def npos : Nat := 2 ^ 64 - 1

/-- `n + 1` in `size_t` arithmetic: wraps `npos + 1` around to `0`,
which the parser relies on when a delimiter search fails. -/
def inc64 (n : Nat) : Nat := (n + 1) % 2 ^ 64

/-- `a - b` in `size_t` arithmetic (two's-complement wrap for `a < b`);
used for the `offset2 - offset` length arguments of `substr`. -/
def sub64 (a b : Nat) : Nat := (2 ^ 64 + a - b % 2 ^ 64) % 2 ^ 64

/-- `s.drop pos`, with the index clamped to the length first.  Clamping does not
change the value (`List.drop` past the end is `[]`) but keeps kernel reduction
linear in the list length when `pos` is the huge literal `npos`. -/
def cppDrop (s : Str) (pos : Nat) : Str := s.drop (min pos s.length)

/-- The value of `std::string::substr(pos, count)`: the chars from `pos`, at most
`count` of them.  (`substr` additionally throws `std::out_of_range` iff
`pos > size()`; the single call site of the parser where that can happen is
guarded explicitly in `parseConnectionFromLine` below.)  The `min` clamp keeps
kernel reduction fast for huge `count`; `List.take` clamps anyway. -/
def subStr (s : Str) (pos count : Nat) : Str :=
  (cppDrop s pos).take (min count (s.length - min pos s.length))

/-- `std::string::find(c, pos)`: index of the first occurrence of `c` at or after
`pos`, and `npos` if there is none (also when `pos > size()`). -/
def strFind (s : Str) (c : Char) (pos : Nat) : Nat :=
  match (cppDrop s pos).findIdx? (fun d => d = c) with
  | some j => min pos s.length + j
  | none => npos

/-- `std::string::find_first_of(delims, pos)`. -/
def findFirstOf (s : Str) (delims : Str) (pos : Nat) : Nat :=
  match (cppDrop s pos).findIdx? (fun d => delims.contains d) with
  | some j => min pos s.length + j
  | none => npos

/-- `std::string::find_first_not_of(delims, pos)`. -/
def findFirstNotOf (s : Str) (delims : Str) (pos : Nat) : Nat :=
  match (cppDrop s pos).findIdx? (fun d => !delims.contains d) with
  | some j => min pos s.length + j
  | none => npos

/-- The `while` loop of `splitString`.  The loop state is `lastPos`; at each
iteration `pos = find_first_of(delims, lastPos)` (this matches the C++ source,
which computes `pos` from `lastPos` both before the loop and at the end of each
iteration).  Each iteration with `pos ≠ npos` strictly increases `lastPos` to
`pos + 1 ≤ length`, and once `lastPos = npos` the next iteration is the final
one, so `s.length + 2` iterations always suffice; the fuel parameter is only a
termination device and is never exhausted when called from `splitString`. -/
def splitLoop (s delims : Str) : Nat → Nat → List Str → List Str
  | 0, _, acc => acc
  | fuel + 1, lastPos, acc =>
    let pos := findFirstOf s delims lastPos
    if pos ≠ npos ∨ lastPos ≠ npos then
      let acc' := acc ++ [subStr s lastPos (sub64 pos lastPos)]
      let lastPos' := if pos = npos then npos else pos + 1
      splitLoop s delims fuel lastPos' acc'
    else acc

/-- `splitString(str, delimiters, tokens)` from main.cpp: the classic
find_first_of tokenizer.  Leading delimiters are skipped by the initial
`find_first_not_of`; interior runs of delimiters yield empty tokens. -/
def splitString (str delims : Str) : List Str :=
  splitLoop str delims (str.length + 2) (findFirstNotOf str delims 0) []

/-- `isspace` of the C locale, as used by `atoi` to skip leading whitespace. -/
def isCSpace (c : Char) : Bool :=
  c = ' ' || c = '\t' || c = '\n' || c = '\x0b' || c = '\x0c' || c = '\r'

/-- Value of the leading run of decimal digits of `s` (`0` if there is none). -/
def digitsVal (s : Str) : Nat :=
  (s.takeWhile (fun c => c.isDigit)).foldl (fun acc c => acc * 10 + (c.toNat - 48)) 0

/-- `std::atoi`: skip C whitespace, read an optional sign and a run of decimal
digits, and return `0` when no digits follow (so `atoi("-") = 0`,
`atoi("abc") = 0`).  Matches the libc contract used by the parser for the
status-code and response-size fields; overflow (undefined in C) is embedded as
exact integer arithmetic. -/
def cppAtoi (s : Str) : Int :=
  let t := s.dropWhile isCSpace
  if t.headD ' ' = '-' then -(digitsVal (t.drop 1) : Int)
  else if t.headD ' ' = '+' then (digitsVal (t.drop 1) : Int)
  else (digitsVal t : Int)

/-- The `Connection` struct of main.cpp (its default constructor zero/empty
initialises every field; the parser then assigns each field in turn). -/
structure Connection where
  clientSource : Str
  clientId : Str
  userId : Str
  timestamp : Str
  httpRequestMethod : Str
  requestUri : Str
  httpVersion : Str
  httpStatusCode : Int
  responseSize : Int
deriving DecidableEq, Repr

/-- How a line can fail to produce a `Connection`:
`outOfRange` is the `std::out_of_range` thrown by `substr(pos, …)` when
`pos > size()` (caught by `getConnectionAttempts`'s `catch (...)`);
`undefinedBehaviour` marks the out-of-bounds `tokens[0..2]` vector read the
C++ code performs when the quoted request splits into fewer than three tokens
(undefined behaviour in the source; embedded as an explicit failure). -/
inductive CppErr where
  | outOfRange
  | undefinedBehaviour
deriving DecidableEq, Repr

/-! The offset chain of `parseConnectionFromLine`, one definition per
assignment of the C++ function body (`offset`/`offset2` in source order).
`strFind` results are valid indices (`< length`) or `npos`; every position
passed to `substr` below is either `0` or `find(…) + 1` (mod `2 ^ 64`), hence
`≤ length` — except `offStatus`, the one call site where `substr` can throw. -/

/-- `offset2 = line.find(" ")` (end of the client source field). -/
def off2Src (line : Str) : Nat := strFind line ' ' 0

/-- `offset = offset2 + 1` (start of the client id field). -/
def offCid (line : Str) : Nat := inc64 (off2Src line)

/-- `offset2 = line.find(' ', offset)` (end of the client id field). -/
def off2Cid (line : Str) : Nat := strFind line ' ' (offCid line)

/-- Start of the user id field. -/
def offUid (line : Str) : Nat := inc64 (off2Cid line)

/-- End of the user id field. -/
def off2Uid (line : Str) : Nat := strFind line ' ' (offUid line)

/-- `offset = line.find('[', offset2 + 1) + 1`: start of the timestamp text. -/
def offTs (line : Str) : Nat := inc64 (strFind line '[' (inc64 (off2Uid line)))

/-- `offset2 = line.find(']', offset)`: the closing bracket. -/
def off2Ts (line : Str) : Nat := strFind line ']' (offTs line)

/-- `offset = line.find('"', offset2 + 1) + 1`: first char of the request line. -/
def offReq (line : Str) : Nat := inc64 (strFind line '"' (inc64 (off2Ts line)))

/-- `offset2 = line.find('"', offset + 1)`: the closing quote. -/
def off2Req (line : Str) : Nat := strFind line '"' (inc64 (offReq line))

/-- `offset = line.find(' ', offset2)`: start of the status-code field
(`npos`, and hence a throwing `substr`, when no space follows the quote). -/
def offStatus (line : Str) : Nat := strFind line ' ' (off2Req line)

/-- `offset2 = line.find(' ', offset + 1)`: end of the status-code field. -/
def off2Status (line : Str) : Nat := strFind line ' ' (inc64 (offStatus line))

/-- The substring passed to `atoi` for the status code. -/
def statusField (line : Str) : Str :=
  subStr line (offStatus line) (sub64 (off2Status line) (offStatus line))

/-- The substring passed to `atoi` for the response size:
`line.substr(offset2 + 1)` (one-argument `substr`, count `npos`). -/
def sizeField (line : Str) : Str := cppDrop line (inc64 (off2Status line))

/-- The whitespace-split of the text between the two quotes
(`splitString(line.substr(offset, offset2 - offset), " \t\n\r", tokens)`). -/
def requestTokens (line : Str) : List Str :=
  splitString (subStr line (offReq line) (sub64 (off2Req line) (offReq line)))
    [' ', '\t', '\n', '\r']

/-- `parseConnectionFromLine` of main.cpp.  The C++ body assigns the fields in
source order; the only observable failure points, in evaluation order, are the
`tokens[0..2]` vector reads (undefined behaviour when fewer than three tokens)
and the status-code `substr` (throws iff its position exceeds the length, i.e.
iff no space occurs at or after the closing quote position).  A thrown
exception escapes before any record is returned. -/
def parseConnectionFromLine (line : Str) : Except CppErr Connection :=
  if 3 ≤ (requestTokens line).length then
    if offStatus line ≤ line.length then
      .ok
        { clientSource := subStr line 0 (off2Src line)
          clientId := subStr line (offCid line) (sub64 (off2Cid line) (offCid line))
          userId := subStr line (offUid line) (sub64 (off2Uid line) (offUid line))
          timestamp := subStr line (offTs line) (sub64 (off2Ts line) (offTs line))
          httpRequestMethod := (requestTokens line).getD 0 []
          requestUri := (requestTokens line).getD 1 []
          httpVersion := (requestTokens line).getD 2 []
          httpStatusCode := cppAtoi (statusField line)
          responseSize := cppAtoi (sizeField line) }
    else .error .outOfRange
  else .error .undefinedBehaviour

deriving instance DecidableEq for Except

/-! ## The aggregator: `getConnectionAttempts` and `main`'s merge loop

`std::map<string, vector<Connection>>` is embedded as an association list whose
keys are kept in strictly increasing lexicographic order (the `std::map`
invariant); `mapInsert` places a fresh key at its sorted position, exactly
where `emplace` puts it. -/

/-- Lexicographic byte-wise comparison of two strings: `operator<` of
`std::string`, which orders the keys of `std::map<string, …>`.  (Log sources
are ASCII, where `char` comparison agrees with `Char` comparison.) -/
def strLt : Str → Str → Bool
  | [], [] => false
  | [], _ :: _ => true
  | _ :: _, [] => false
  | a :: as, b :: bs => if a < b then true else if b < a then false else strLt as bs

/-- The group mapping `map<string, vector<Connection>>`. -/
abbrev GroupMap : Type := List (Str × List Connection)

/-- `m.find(k)`: the value stored under key `k`, if any. -/
def mapFind (m : GroupMap) (k : Str) : Option (List Connection) :=
  match m with
  | [] => none
  | p :: t => if p.1 = k then some p.2 else mapFind t k

/-- `m.emplace(k, v)` for a key not yet present: insert at the sorted position. -/
def mapInsert (m : GroupMap) (k : Str) (v : List Connection) : GroupMap :=
  match m with
  | [] => [(k, v)]
  | p :: t => if strLt k p.1 then (k, v) :: p :: t else p :: mapInsert t k v

/-- Replace the value stored under `k` (no-op when `k` is absent). -/
def mapUpdate (m : GroupMap) (k : Str) (f : List Connection → List Connection) : GroupMap :=
  match m with
  | [] => []
  | p :: t => if p.1 = k then (p.1, f p.2) :: t else p :: mapUpdate t k f

/-- One record arriving at the aggregator (`getConnectionAttempts` loop body
after a successful parse): first record of a source creates its group,
later records are `push_back`ed at the end of the group's vector. -/
def addRecord (m : GroupMap) (c : Connection) : GroupMap :=
  match mapFind m c.clientSource with
  | none => mapInsert m c.clientSource [c]
  | some _ => mapUpdate m c.clientSource (fun l => l ++ [c])

/-- What one iteration of the `getConnectionAttempts` loop did with its line. -/
inductive LineOutcome where
  | skippedEmpty
  | parsed (c : Connection)
  | failed (e : CppErr)
deriving DecidableEq

/-- One iteration of the `getConnectionAttempts` loop: empty lines are skipped
by the `line.empty()` guard before any parsing; a throwing parse is caught by
`catch (...)` and the map is left untouched; a returned record is aggregated. -/
def lineStep (m : GroupMap) (line : Str) : GroupMap × LineOutcome :=
  if line = [] then (m, .skippedEmpty)
  else
    match parseConnectionFromLine line with
    | .error e => (m, .failed e)
    | .ok c => (addRecord m c, .parsed c)

/-- The map after one iteration of the loop. -/
def addLine (m : GroupMap) (line : Str) : GroupMap := (lineStep m line).1

/-- `getConnectionAttempts(logLines)`: fold the loop over the lines. -/
def getConnectionAttempts (logLines : List Str) : GroupMap :=
  logLines.foldl addLine []

/-- Grouping a list of already-parsed records (the aggregation performed by
`getConnectionAttempts` once parsing has succeeded). -/
def groupRecords (records : List Connection) : GroupMap :=
  records.foldl addRecord []

/-- `iterator->second.insert(iterator->second.end() - 1, new.begin(), new.end())`
from `main`'s merge loop: the incoming records land *before the last element*
of the existing vector (`end() - 1`, not `end()`).  For an empty existing
vector `end() - 1` is undefined behaviour in C++; the embedding then yields
`new`, and every vector reachable from the aggregator is non-empty. -/
def insertBeforeLast (old new : List Connection) : List Connection :=
  old.dropLast ++ new ++ old.drop (old.length - 1)

/-- One iteration of `main`'s inner merge loop over a per-file map's entries:
an unseen source is `emplace`d whole, an existing one receives the incoming
records via `insert(end() - 1, …)`. -/
def mergeEntry (total : GroupMap) (e : Str × List Connection) : GroupMap :=
  match mapFind total e.1 with
  | none => mapInsert total e.1 e.2
  | some old => mapUpdate total e.1 (fun _ => insertBeforeLast old e.2)

/-- Merging one per-file group map into `totalConnections`. -/
def mergeMaps (total m : GroupMap) : GroupMap := m.foldl mergeEntry total

/-- `main`'s outer loop: parse and aggregate each file's lines, then merge the
per-file maps left to right into `totalConnections`. -/
def mainTotalConnections (files : List (List Str)) : GroupMap :=
  files.foldl (fun total lines => mergeMaps total (getConnectionAttempts lines)) []

/-- The order in which `printUniqueIpStats` emits one table per group: its
`for (const auto& mapEntry : ipMap)` walks the `std::map` in key order. -/
def renderOrder (m : GroupMap) : List Str := m.map Prod.fst

/-! ## Status-code tallies (`printUniqueIpStats`'s switch, `countHttpResults`) -/

/-- `countHttpResults(connectionList, statusCode)`: `std::count_if` over the
records comparing `httpStatusCode`. -/
def countHttpResults (connectionList : List Connection) (statusCode : Int) : Nat :=
  connectionList.countP (fun conn => conn.httpStatusCode = statusCode)

/-- The per-client counter surfaced by the report for one status code. -/
def counters (m : GroupMap) (k : Str) (code : Int) : Nat :=
  countHttpResults ((mapFind m k).getD []) code

/-- The nine `uint32_t total…` counters of `printUniqueIpStats`, embedded as
naturals that are kept reduced modulo `2 ^ 32` by `tallyStep` (unsigned
overflow is defined behaviour in C++: the counters wrap). -/
structure Tallies where
  t200 : Nat
  t204 : Nat
  t301 : Nat
  t400 : Nat
  t401 : Nat
  t403 : Nat
  t404 : Nat
  t500 : Nat
  t503 : Nat
deriving DecidableEq, Repr

/-- All nine counters initialised to `0`. -/
def zeroTallies : Tallies := ⟨0, 0, 0, 0, 0, 0, 0, 0, 0⟩

/-- The `switch (connection.httpStatusCode)` of `printUniqueIpStats`: exactly
one of the nine tracked codes increments its counter; every other code hits
`default` and changes nothing.  The `uint32_t` increment `total…++` wraps
around at `2 ^ 32`, embedded as an explicit `% 2 ^ 32`. -/
def tallyStep (t : Tallies) (c : Connection) : Tallies :=
  if c.httpStatusCode = 200 then { t with t200 := (t.t200 + 1) % 2 ^ 32 }
  else if c.httpStatusCode = 204 then { t with t204 := (t.t204 + 1) % 2 ^ 32 }
  else if c.httpStatusCode = 301 then { t with t301 := (t.t301 + 1) % 2 ^ 32 }
  else if c.httpStatusCode = 400 then { t with t400 := (t.t400 + 1) % 2 ^ 32 }
  else if c.httpStatusCode = 401 then { t with t401 := (t.t401 + 1) % 2 ^ 32 }
  else if c.httpStatusCode = 403 then { t with t403 := (t.t403 + 1) % 2 ^ 32 }
  else if c.httpStatusCode = 404 then { t with t404 := (t.t404 + 1) % 2 ^ 32 }
  else if c.httpStatusCode = 500 then { t with t500 := (t.t500 + 1) % 2 ^ 32 }
  else if c.httpStatusCode = 503 then { t with t503 := (t.t503 + 1) % 2 ^ 32 }
  else t

/-- The `for (const auto& connection : mapEntry.second)` tally loop. -/
def tallyRecords (records : List Connection) : Tallies :=
  records.foldl tallyStep zeroTallies

/-- Projection of the counter belonging to a tracked status code. -/
def getTally (t : Tallies) (code : Int) : Nat :=
  if code = 200 then t.t200
  else if code = 204 then t.t204
  else if code = 301 then t.t301
  else if code = 400 then t.t400
  else if code = 401 then t.t401
  else if code = 403 then t.t403
  else if code = 404 then t.t404
  else if code = 500 then t.t500
  else if code = 503 then t.t503
  else 0

/-- The fixed set of status codes the report surfaces. -/
def trackedCodes : List Int := [200, 204, 301, 400, 401, 403, 404, 500, 503]

/-- The nine counter values of a group's data row, in column order. -/
def nineCounts (records : List Connection) : List Nat :=
  [(tallyRecords records).t200, (tallyRecords records).t204, (tallyRecords records).t301,
   (tallyRecords records).t400, (tallyRecords records).t401, (tallyRecords records).t403,
   (tallyRecords records).t404, (tallyRecords records).t500, (tallyRecords records).t503]

/-! ## Cell rendering (`getSpacerStrings`, the data row, the header width) -/

/-- `getSpacerStrings(width, centreString)`: two runs of spaces used to centre
`centreString` in a column of `width` characters.  `str1` has
`width / 2 - centreString.length() / 2` spaces and `str2` fills the remainder.
(The `size_t` subtractions cannot underflow whenever the text is no longer
than the column, the only regime in which the program calls it.) -/
def getSpacerStrings (width : Nat) (centreString : Str) : Str × Str :=
  let str1 : Str := List.replicate (width / 2 - centreString.length / 2) ' '
  let str2 : Str := List.replicate (width - str1.length - centreString.length) ' '
  (str1, str2)

/-- `std::to_string` of a count, as a char list. -/
def natChars (n : Nat) : Str := (Nat.repr n).toList

/-- One count column of the data row: `printUniqueIpStats` renders each of the
nine counters as `sepStrings.first + to_string(count) + sepStrings.second`
with `sepStrings = getSpacerStrings(11, to_string(count))`. -/
def countCell (n : Nat) : Str :=
  (getSpacerStrings 11 (natChars n)).1 ++ natChars n ++ (getSpacerStrings 11 (natChars n)).2

/-- The header label of the source column. -/
def HEADER_CLIENT_SRC : Str := "Source".toList

/-- The spacer pair of the source header cell: `printUniqueIpStats` widens the
column to the source string's length when that is longer than the label, and
otherwise uses the label's length plus two. -/
def headerSepStrings (src : Str) : Str × Str :=
  if HEADER_CLIENT_SRC.length < src.length then getSpacerStrings src.length HEADER_CLIENT_SRC
  else getSpacerStrings (HEADER_CLIENT_SRC.length + 2) HEADER_CLIENT_SRC

/-- The width of the rendered source column: the length of
`sepStrings.first + HEADER_CLIENT_SRC + sepStrings.second` in the header row
(the separator row repeats exactly this many dashes). -/
def sourceColumnWidth (src : Str) : Nat :=
  (headerSepStrings src).1.length + HEADER_CLIENT_SRC.length + (headerSepStrings src).2.length

/-- Modelled from the spec: the source-column width as §4.3 words it — "the
longer of the header label length and the client source string length, capped
at a maximum width (default 80)".  Stated only to be compared against the
width the code actually produces. -/
def claimedSourceWidth (src : Str) : Nat :=
  min (max HEADER_CLIENT_SRC.length src.length) 80

/-! ## Lemmas about the map embedding -/

theorem mapFind_eq_none (m : GroupMap) (k : Str) :
    mapFind m k = none ↔ k ∉ m.map Prod.fst := by
  induction m with
  | nil => simp [mapFind]
  | cons p t ih =>
    simp only [mapFind, List.map_cons, List.mem_cons, not_or]
    by_cases h : p.1 = k
    · simp [h]
    · have h' : ¬k = p.1 := fun hk => h hk.symm
      simp [h, h', ih]

theorem mapFind_insert_self (m : GroupMap) (k : Str) (v : List Connection)
    (hk : k ∉ m.map Prod.fst) : mapFind (mapInsert m k v) k = some v := by
  induction m with
  | nil => simp [mapInsert, mapFind]
  | cons p t ih =>
    simp only [List.map_cons, List.mem_cons, not_or] at hk
    have hp : ¬p.1 = k := fun h => hk.1 h.symm
    by_cases h : strLt k p.1
    · simp [mapInsert, h, mapFind]
    · simp [mapInsert, h, mapFind, hp, ih hk.2]

theorem mapFind_insert_ne (m : GroupMap) (k : Str) (v : List Connection) (k' : Str)
    (h : k' ≠ k) : mapFind (mapInsert m k v) k' = mapFind m k' := by
  induction m with
  | nil => simp [mapInsert, mapFind, Ne.symm h]
  | cons p t ih =>
    by_cases hlt : strLt k p.1
    · simp only [mapInsert, if_pos hlt]
      simp [mapFind, Ne.symm h]
    · simp only [mapInsert, if_neg hlt]
      by_cases hp : p.1 = k' <;> simp [mapFind, hp, ih]

theorem mapUpdate_of_find_none (m : GroupMap) (k : Str) (f : List Connection → List Connection)
    (h : mapFind m k = none) : mapUpdate m k f = m := by
  induction m with
  | nil => simp [mapUpdate]
  | cons p t ih =>
    by_cases hp : p.1 = k
    · simp [mapFind, hp] at h
    · simp only [mapFind, if_neg hp] at h
      simp [mapUpdate, hp, ih h]

theorem mapFind_update_self (m : GroupMap) (k : Str) (f : List Connection → List Connection)
    (old : List Connection) (h : mapFind m k = some old) :
    mapFind (mapUpdate m k f) k = some (f old) := by
  induction m with
  | nil => simp [mapFind] at h
  | cons p t ih =>
    by_cases hp : p.1 = k
    · rw [show mapFind (p :: t) k = if p.1 = k then some p.2 else mapFind t k from rfl,
        if_pos hp] at h
      have hv : p.2 = old := by injection h
      simp [mapUpdate, mapFind, hp, hv]
    · simp only [mapFind, if_neg hp] at h
      simp [mapUpdate, mapFind, hp, ih h]

theorem mapFind_update_ne (m : GroupMap) (k : Str) (f : List Connection → List Connection)
    (k' : Str) (h : k' ≠ k) : mapFind (mapUpdate m k f) k' = mapFind m k' := by
  induction m with
  | nil => simp [mapUpdate]
  | cons p t ih =>
    by_cases hp : p.1 = k
    · have hk' : ¬p.1 = k' := by rw [hp]; exact Ne.symm h
      simp only [mapUpdate, if_pos hp]
      simp [mapFind, hk', hp ▸ hk']
    · simp only [mapUpdate, if_neg hp]
      by_cases hp' : p.1 = k' <;> simp [mapFind, hp', ih]

theorem mapUpdate_keys (m : GroupMap) (k : Str) (f : List Connection → List Connection) :
    (mapUpdate m k f).map Prod.fst = m.map Prod.fst := by
  induction m with
  | nil => simp [mapUpdate]
  | cons p t ih =>
    by_cases hp : p.1 = k <;> simp [mapUpdate, hp, ih]

theorem mapInsert_keys_perm (m : GroupMap) (k : Str) (v : List Connection) :
    ((mapInsert m k v).map Prod.fst).Perm (k :: m.map Prod.fst) := by
  induction m with
  | nil => simp [mapInsert]
  | cons p t ih =>
    by_cases h : strLt k p.1
    · simp [mapInsert, h]
    · simp only [mapInsert, if_neg h, List.map_cons]
      exact (ih.cons p.1).trans (List.Perm.swap k p.1 _)

theorem mem_mapInsert (m : GroupMap) (k : Str) (v : List Connection) (p : Str × List Connection) :
    p ∈ mapInsert m k v ↔ p ∈ m ∨ p = (k, v) := by
  induction m with
  | nil => simp [mapInsert]
  | cons q t ih =>
    by_cases h : strLt k q.1
    · simp only [mapInsert, if_pos h, List.mem_cons]
      tauto
    · simp only [mapInsert, if_neg h, List.mem_cons, ih]
      tauto

/-! ## Counting lemmas and the merge decomposition -/

theorem countHttpResults_append (a b : List Connection) (code : Int) :
    countHttpResults (a ++ b) code = countHttpResults a code + countHttpResults b code :=
  List.countP_append _ a b

theorem dropLast_append_drop (l : List Connection) :
    l.dropLast ++ l.drop (l.length - 1) = l := by
  rw [List.dropLast_eq_take l, List.take_append_drop]

/-- `insert(end() - 1, …)` reorders records but adds the incoming ones exactly
once: the counters see the multiset union. -/
theorem countHttpResults_insertBeforeLast (old new : List Connection) (code : Int) :
    countHttpResults (insertBeforeLast old new) code
      = countHttpResults old code + countHttpResults new code := by
  unfold insertBeforeLast
  rw [countHttpResults_append, countHttpResults_append]
  rw [show countHttpResults old code
      = countHttpResults old.dropLast code + countHttpResults (old.drop (old.length - 1)) code by
    rw [← countHttpResults_append, dropLast_append_drop]]
  ring

theorem counters_mergeEntry (a : GroupMap) (e : Str × List Connection) (k : Str) (code : Int) :
    counters (mergeEntry a e) k code
      = counters a k code + (if e.1 = k then countHttpResults e.2 code else 0) := by
  cases hfind : mapFind a e.1 with
  | none =>
    by_cases hk : e.1 = k
    · subst hk
      have hmem := (mapFind_eq_none a e.1).mp hfind
      simp [counters, mergeEntry, hfind, mapFind_insert_self a e.1 e.2 hmem,
        countHttpResults]
    · simp [counters, mergeEntry, hfind, mapFind_insert_ne a e.1 e.2 k (Ne.symm hk), hk]
  | some old =>
    by_cases hk : e.1 = k
    · subst hk
      simp [counters, mergeEntry, hfind, mapFind_update_self a e.1 _ old hfind,
        countHttpResults_insertBeforeLast]
    · simp [counters, mergeEntry, hfind, mapFind_update_ne a e.1 _ k (Ne.symm hk), hk]

theorem mergeEntry_keys_nodup (a : GroupMap) (e : Str × List Connection)
    (h : (a.map Prod.fst).Nodup) : ((mergeEntry a e).map Prod.fst).Nodup := by
  cases hfind : mapFind a e.1 with
  | none =>
    have hmem := (mapFind_eq_none a e.1).mp hfind
    have hperm := mapInsert_keys_perm a e.1 e.2
    simp only [mergeEntry, hfind]
    exact hperm.nodup_iff.mpr (List.nodup_cons.mpr ⟨hmem, h⟩)
  | some old =>
    simp only [mergeEntry, hfind]
    rw [mapUpdate_keys]
    exact h

theorem mergeMaps_keys_nodup (b : GroupMap) :
    ∀ a : GroupMap, (a.map Prod.fst).Nodup → ((mergeMaps a b).map Prod.fst).Nodup := by
  induction b with
  | nil => intro a h; simpa [mergeMaps] using h
  | cons e bs ih =>
    intro a h
    have : mergeMaps a (e :: bs) = mergeMaps (mergeEntry a e) bs := rfl
    rw [this]
    exact ih _ (mergeEntry_keys_nodup a e h)

/-- Decomposition of the merged counters: for a duplicate-free second operand,
each client's counter in the merge is the sum of its counters in the two
operands. -/
theorem counters_mergeMaps (b : GroupMap) :
    ∀ a : GroupMap, (b.map Prod.fst).Nodup → ∀ (k : Str) (code : Int),
      counters (mergeMaps a b) k code = counters a k code + counters b k code := by
  induction b with
  | nil => intro a _ k code; simp [mergeMaps, counters, mapFind, countHttpResults]
  | cons e bs ih =>
    intro a h k code
    have hstep : mergeMaps a (e :: bs) = mergeMaps (mergeEntry a e) bs := rfl
    simp only [List.map_cons, List.nodup_cons] at h
    rw [hstep, ih (mergeEntry a e) h.2 k code, counters_mergeEntry]
    by_cases hk : e.1 = k
    · subst hk
      have hbs : mapFind bs e.1 = none := (mapFind_eq_none bs e.1).mpr h.1
      simp [counters, mapFind, hbs, countHttpResults]
    · simp [counters, mapFind, hk]

/-! ## The tally loop computes the status-code counts -/

set_option maxHeartbeats 4000000 in
/-- One pass of `printUniqueIpStats`'s `switch`: for a tracked code, the
matching counter advances by one (wrapping at `2 ^ 32`) exactly when the
record carries that code. -/
theorem getTally_tallyStep (t : Tallies) (c : Connection) (code : Int)
    (h : code ∈ trackedCodes) :
    getTally (tallyStep t c) code
      = if c.httpStatusCode = code then (getTally t code + 1) % 2 ^ 32
        else getTally t code := by
  simp only [trackedCodes, List.mem_cons, List.not_mem_nil, or_false] at h
  rcases h with h | h | h | h | h | h | h | h | h <;> subst h <;>
    · simp only [tallyStep]
      split_ifs <;> simp_all [getTally]

theorem getTally_zeroTallies (code : Int) : getTally zeroTallies code = 0 := by
  simp only [getTally, zeroTallies]
  split_ifs <;> rfl

theorem getTally_foldl_tallyStep (records : List Connection) (code : Int)
    (h : code ∈ trackedCodes) : ∀ t : Tallies, getTally t code < 2 ^ 32 →
    getTally (records.foldl tallyStep t) code
      = (getTally t code + countHttpResults records code) % 2 ^ 32 := by
  induction records with
  | nil =>
    intro t ht
    simp only [List.foldl_nil, countHttpResults, List.countP_nil, Nat.add_zero]
    exact (Nat.mod_eq_of_lt ht).symm
  | cons c rest ih =>
    intro t ht
    have ht' : getTally (tallyStep t c) code < 2 ^ 32 := by
      rw [getTally_tallyStep t c code h]
      by_cases hc : c.httpStatusCode = code
      · simp only [if_pos hc]
        exact Nat.mod_lt _ (by norm_num)
      · simp only [if_neg hc]
        exact ht
    rw [List.foldl_cons, ih (tallyStep t c) ht', getTally_tallyStep t c code h]
    have hcc : countHttpResults (c :: rest) code
        = countHttpResults rest code + (if c.httpStatusCode = code then 1 else 0) := by
      simp [countHttpResults, List.countP_cons]
    rw [hcc]
    by_cases hc : c.httpStatusCode = code
    · rw [if_pos hc, if_pos hc, Nat.mod_add_mod]
      congr 1
      omega
    · rw [if_neg hc, if_neg hc, Nat.add_zero]

/-- For every tracked code, the rendered `uint32_t` counter is the count of
matching records reduced modulo `2 ^ 32`. -/
theorem getTally_tallyRecords (records : List Connection) (code : Int)
    (h : code ∈ trackedCodes) :
    getTally (tallyRecords records) code = countHttpResults records code % 2 ^ 32 := by
  rw [tallyRecords,
    getTally_foldl_tallyStep records code h zeroTallies
      (by rw [getTally_zeroTallies]; norm_num),
    getTally_zeroTallies, Nat.zero_add]

/-! ## Aggregating records of a single client source -/

theorem foldl_addRecord_single (s : Str) (rest : List Connection) :
    ∀ l : List Connection, (∀ c ∈ rest, c.clientSource = s) →
      rest.foldl addRecord [(s, l)] = [(s, l ++ rest)] := by
  induction rest with
  | nil => intro l _; simp
  | cons c cs ih =>
    intro l h
    have hc : c.clientSource = s := h c (List.mem_cons_self c cs)
    have hstep : addRecord [(s, l)] c = [(s, l ++ [c])] := by
      simp [addRecord, hc, mapFind, mapUpdate]
    rw [List.foldl_cons, hstep, ih (l ++ [c]) (fun d hd => h d (List.mem_cons_of_mem c hd))]
    simp

/-- A non-empty record list with a single client source aggregates into
exactly one group holding exactly that list. -/
theorem groupRecords_single_source (records : List Connection) (s : Str)
    (hne : records ≠ []) (hsrc : ∀ c ∈ records, c.clientSource = s) :
    groupRecords records = [(s, records)] := by
  cases records with
  | nil => exact absurd rfl hne
  | cons r rest =>
    have hr : r.clientSource = s := hsrc r (List.mem_cons_self r rest)
    have hstep : addRecord [] r = [(s, [r])] := by
      simp [addRecord, mapFind, mapInsert, hr]
    unfold groupRecords
    rw [List.foldl_cons, hstep,
      foldl_addRecord_single s rest [r] (fun d hd => hsrc d (List.mem_cons_of_mem r hd))]
    simp

/-- Counting over a replicated record whose status matches. -/
theorem countHttpResults_replicate (n : Nat) (c : Connection) (code : Int)
    (h : c.httpStatusCode = code) :
    countHttpResults (List.replicate n c) code = n := by
  induction n with
  | zero => simp [countHttpResults]
  | succ k ih =>
    simp only [List.replicate_succ, countHttpResults, List.countP_cons] at *
    simp [h, ih]

/-! ## The lexicographic key order of `std::map` -/

theorem strLt_cons (x y : Char) (as bs : Str) :
    strLt (x :: as) (y :: bs) = true ↔ x < y ∨ (x = y ∧ strLt as bs = true) := by
  simp only [strLt]
  rcases lt_trichotomy x y with h | h | h
  · simp [h]
  · subst h
    simp [lt_irrefl]
  · have hne : x ≠ y := by
      intro he
      subst he
      exact absurd h (lt_irrefl x)
    simp [lt_asymm h, h, hne]

theorem strLt_trans (a : Str) : ∀ b c : Str,
    strLt a b = true → strLt b c = true → strLt a c = true := by
  induction a with
  | nil =>
    intro b c hab hbc
    cases b with
    | nil => simp [strLt] at hab
    | cons y bs =>
      cases c with
      | nil => simp [strLt] at hbc
      | cons z cs => simp [strLt]
  | cons x as ih =>
    intro b c hab hbc
    cases b with
    | nil => simp [strLt] at hab
    | cons y bs =>
      cases c with
      | nil => simp [strLt] at hbc
      | cons z cs =>
        rw [strLt_cons] at hab hbc ⊢
        rcases hab with h1 | ⟨h1, h1'⟩
        · rcases hbc with h2 | ⟨h2, h2'⟩
          · exact Or.inl (lt_trans h1 h2)
          · exact Or.inl (by rw [← h2]; exact h1)
        · rcases hbc with h2 | ⟨h2, h2'⟩
          · exact Or.inl (by rw [h1]; exact h2)
          · exact Or.inr ⟨h1.trans h2, ih bs cs h1' h2'⟩

theorem strLt_total (a : Str) : ∀ b : Str, a ≠ b →
    strLt a b = true ∨ strLt b a = true := by
  induction a with
  | nil =>
    intro b h
    cases b with
    | nil => exact absurd rfl h
    | cons y bs => exact Or.inl (by simp [strLt])
  | cons x as ih =>
    intro b h
    cases b with
    | nil => exact Or.inr (by simp [strLt])
    | cons y bs =>
      rcases lt_trichotomy x y with hxy | hxy | hxy
      · exact Or.inl ((strLt_cons x y as bs).mpr (Or.inl hxy))
      · subst hxy
        have hne : as ≠ bs := fun he => h (by rw [he])
        rcases ih bs hne with h1 | h1
        · exact Or.inl ((strLt_cons x x as bs).mpr (Or.inr ⟨rfl, h1⟩))
        · exact Or.inr ((strLt_cons x x bs as).mpr (Or.inr ⟨rfl, h1⟩))
      · exact Or.inr ((strLt_cons y x bs as).mpr (Or.inl hxy))

/-- The `std::map` invariant: keys strictly ascending in `operator<` order. -/
def mapSorted (m : GroupMap) : Prop :=
  m.Pairwise (fun p q => strLt p.1 q.1 = true)

theorem mem_mapUpdate_fst (m : GroupMap) (k : Str) (f : List Connection → List Connection)
    (q : Str × List Connection) (h : q ∈ mapUpdate m k f) : ∃ q' ∈ m, q.1 = q'.1 := by
  induction m with
  | nil => simp [mapUpdate] at h
  | cons p t ih =>
    by_cases hp : p.1 = k
    · simp only [mapUpdate, if_pos hp] at h
      rcases List.mem_cons.mp h with h1 | h1
      · exact ⟨p, List.mem_cons_self p t, by rw [h1]⟩
      · exact ⟨q, List.mem_cons_of_mem p h1, rfl⟩
    · simp only [mapUpdate, if_neg hp] at h
      rcases List.mem_cons.mp h with h1 | h1
      · exact ⟨p, List.mem_cons_self p t, by rw [h1]⟩
      · obtain ⟨q', hq', he⟩ := ih h1
        exact ⟨q', List.mem_cons_of_mem p hq', he⟩

theorem mapUpdate_sorted (k : Str) (f : List Connection → List Connection) :
    ∀ m : GroupMap, mapSorted m → mapSorted (mapUpdate m k f) := by
  intro m
  induction m with
  | nil => intro h; simpa [mapUpdate] using h
  | cons p t ih =>
    intro h
    simp only [mapSorted, List.pairwise_cons] at h
    by_cases hp : p.1 = k
    · simp only [mapUpdate, if_pos hp, mapSorted, List.pairwise_cons]
      exact ⟨h.1, h.2⟩
    · simp only [mapUpdate, if_neg hp, mapSorted, List.pairwise_cons]
      constructor
      · intro q hq
        obtain ⟨q', hq', heq⟩ := mem_mapUpdate_fst t k f q hq
        rw [heq]
        exact h.1 q' hq'
      · exact ih h.2

theorem mapInsert_sorted (k : Str) (v : List Connection) :
    ∀ m : GroupMap, k ∉ m.map Prod.fst → mapSorted m → mapSorted (mapInsert m k v) := by
  intro m
  induction m with
  | nil => intro _ _; simp [mapInsert, mapSorted]
  | cons p t ih =>
    intro hk h
    simp only [mapSorted, List.pairwise_cons] at h
    simp only [List.map_cons, List.mem_cons, not_or] at hk
    by_cases hlt : strLt k p.1
    · simp only [mapInsert, if_pos hlt, mapSorted, List.pairwise_cons]
      refine ⟨?_, h.1, h.2⟩
      intro q hq
      rcases List.mem_cons.mp hq with h1 | h1
      · rw [h1]; exact hlt
      · exact strLt_trans k p.1 q.1 hlt (h.1 q h1)
    · have hne : p.1 ≠ k := fun he => hk.1 he.symm
      have hgt : strLt p.1 k = true := by
        rcases strLt_total p.1 k hne with h1 | h1
        · exact h1
        · exact absurd h1 hlt
      simp only [mapInsert, if_neg hlt, mapSorted, List.pairwise_cons]
      constructor
      · intro q hq
        rcases (mem_mapInsert t k v q).mp hq with h1 | h1
        · exact h.1 q h1
        · rw [h1]; exact hgt
      · exact ih hk.2 h.2

theorem addRecord_sorted (m : GroupMap) (c : Connection) (h : mapSorted m) :
    mapSorted (addRecord m c) := by
  cases hfind : mapFind m c.clientSource with
  | none =>
    simp only [addRecord, hfind]
    exact mapInsert_sorted c.clientSource [c] m
      ((mapFind_eq_none m c.clientSource).mp hfind) h
  | some old =>
    simp only [addRecord, hfind]
    exact mapUpdate_sorted c.clientSource _ m h

theorem addLine_sorted (m : GroupMap) (line : Str) (h : mapSorted m) :
    mapSorted (addLine m line) := by
  unfold addLine lineStep
  by_cases he : line = []
  · simpa [he] using h
  · simp only [if_neg he]
    cases hp : parseConnectionFromLine line with
    | error e => simpa using h
    | ok c => simpa using addRecord_sorted m c h

theorem foldl_addLine_sorted (lines : List Str) :
    ∀ m : GroupMap, mapSorted m → mapSorted (lines.foldl addLine m) := by
  induction lines with
  | nil => intro m h; simpa using h
  | cons l ls ih =>
    intro m h
    rw [List.foldl_cons]
    exact ih _ (addLine_sorted m l h)

theorem getConnectionAttempts_sorted (lines : List Str) :
    mapSorted (getConnectionAttempts lines) :=
  foldl_addLine_sorted lines [] List.Pairwise.nil

theorem mergeEntry_sorted (a : GroupMap) (e : Str × List Connection) (h : mapSorted a) :
    mapSorted (mergeEntry a e) := by
  cases hfind : mapFind a e.1 with
  | none =>
    simp only [mergeEntry, hfind]
    exact mapInsert_sorted e.1 e.2 a ((mapFind_eq_none a e.1).mp hfind) h
  | some old =>
    simp only [mergeEntry, hfind]
    exact mapUpdate_sorted e.1 _ a h

theorem mergeMaps_sorted (b : GroupMap) :
    ∀ a : GroupMap, mapSorted a → mapSorted (mergeMaps a b) := by
  induction b with
  | nil => intro a h; simpa [mergeMaps] using h
  | cons e bs ih =>
    intro a h
    exact ih (mergeEntry a e) (mergeEntry_sorted a e h)

theorem mainTotalConnections_sorted (files : List (List Str)) :
    mapSorted (mainTotalConnections files) := by
  unfold mainTotalConnections
  have : ∀ fs : List (List Str), ∀ m : GroupMap, mapSorted m →
      mapSorted (fs.foldl (fun total lines => mergeMaps total (getConnectionAttempts lines)) m) := by
    intro fs
    induction fs with
    | nil => intro m h; simpa using h
    | cons f fs ih =>
      intro m h
      rw [List.foldl_cons]
      exact ih _ (mergeMaps_sorted (getConnectionAttempts f) m h)
  exact this files [] List.Pairwise.nil

/-! ## What a successful parse guarantees about the numeric fields -/

/-- `atoi` returns a negative value only when the text it was given contains a
minus sign. -/
theorem cppAtoi_neg_mem (s : Str) (h : cppAtoi s < 0) : '-' ∈ s := by
  have hsuff : s.dropWhile isCSpace <:+ s := List.dropWhile_suffix isCSpace
  simp only [cppAtoi] at h
  split_ifs at h with h1 h2
  · cases hd : s.dropWhile isCSpace with
    | nil => rw [hd] at h1; simp at h1
    | cons x rest =>
      rw [hd] at h1
      simp only [List.headD_cons] at h1
      have hmem : '-' ∈ s.dropWhile isCSpace := by
        rw [hd, ← h1]
        exact List.mem_cons_self x rest
      exact hsuff.subset hmem
  · exact absurd h (by simp [Int.natCast_nonneg])
  · exact absurd h (by simp [Int.natCast_nonneg])

/-- The numeric fields of a successfully parsed record are exactly `atoi` of
the status and size substrings the parser extracted. -/
theorem parse_ok_fields (line : Str) (c : Connection)
    (h : parseConnectionFromLine line = .ok c) :
    c.responseSize = cppAtoi (sizeField line) ∧
      c.httpStatusCode = cppAtoi (statusField line) := by
  unfold parseConnectionFromLine at h
  by_cases h1 : 3 ≤ (requestTokens line).length
  · rw [if_pos h1] at h
    by_cases h2 : offStatus line ≤ line.length
    · rw [if_pos h2, Except.ok.injEq] at h
      exact ⟨by rw [← h], by rw [← h]⟩
    · rw [if_neg h2] at h
      exact Except.noConfusion h
  · rw [if_neg h1] at h
    exact Except.noConfusion h

/-! ## Concrete data used by witnesses and counterexamples -/

/-- A record with the given source and status code (remaining fields empty),
used as concrete test data. -/
def sampleConn (src : Str) (code : Int) : Connection :=
  { clientSource := src, clientId := [], userId := [], timestamp := [],
    httpRequestMethod := [], requestUri := [], httpVersion := [],
    httpStatusCode := code, responseSize := 0 }

/-- The well-formed example line of the access-log layout. -/
def exampleLine : Str :=
  "127.0.0.1 - - [10/Oct/2023:13:55:36 -0700] \"GET /index.html HTTP/1.1\" 200 2326".toList

/-- The record the parser produces for `exampleLine`. -/
def exampleRecord : Connection :=
  { clientSource := "127.0.0.1".toList, clientId := "-".toList, userId := "-".toList,
    timestamp := "10/Oct/2023:13:55:36 -0700".toList,
    httpRequestMethod := "GET".toList, requestUri := "/index.html".toList,
    httpVersion := "HTTP/1.1".toList, httpStatusCode := 200, responseSize := 2326 }

/-- A line whose timestamp field lacks its closing `]` while a quoted request
follows. -/
def c1FailingLine : Str := "a b c [10/Oct \"GET /x HTTP/1.1\" 200 7".toList

/-- A well-delimited line whose size field is the negative numeral `-5`. -/
def c2FailingLine : Str := "a b c [t] \"GET /x HTTP/1.1\" 200 -5".toList

/-- A parseable line with client source `"a"`. -/
def lineSrcA : Str := "a - - [t] \"GET / HTTP/1.1\" 200 1".toList

/-- A parseable line with client source `"b"`. -/
def lineSrcB : Str := "b - - [t] \"GET / HTTP/1.1\" 200 1".toList

/-! ## The claims -/

/-- Claim C1, evaluated on the code at a failing input: for the line
`a b c [10/Oct "GET /x HTTP/1.1" 200 7`, which lacks the closing `]` of its
timestamp field, `parseConnectionFromLine` does not fail — it returns a fully
populated record whose timestamp has absorbed the rest of the line (the `]`
search returned `npos`, `npos + 1` wrapped to `0`, and the quote search then
succeeded from the start of the line) — and `getConnectionAttempts` adds that
record to the group mapping, contradicting the claim that such a line yields a
`ParseFailure` and leaves the aggregator's mapping unchanged. -/
theorem c1_missing_bracket_not_failure :
    parseConnectionFromLine c1FailingLine = .ok
      { clientSource := "a".toList, clientId := "b".toList, userId := "c".toList,
        timestamp := "10/Oct \"GET /x HTTP/1.1\" 200 7".toList,
        httpRequestMethod := "GET".toList, requestUri := "/x".toList,
        httpVersion := "HTTP/1.1".toList, httpStatusCode := 200, responseSize := 7 } ∧
      getConnectionAttempts [c1FailingLine] =
        [("a".toList,
          [{ clientSource := "a".toList, clientId := "b".toList, userId := "c".toList,
             timestamp := "10/Oct \"GET /x HTTP/1.1\" 200 7".toList,
             httpRequestMethod := "GET".toList, requestUri := "/x".toList,
             httpVersion := "HTTP/1.1".toList, httpStatusCode := 200, responseSize := 7 }])] := by
  decide

/-- Claim C2, refuted as stated: the well-delimited line
`a b c [t] "GET /x HTTP/1.1" 200 -5` parses successfully into a record whose
`responseSize` is `-5`, so a successful parse does not guarantee a
non-negative size. -/
theorem c2_negative_size_counterexample :
    parseConnectionFromLine c2FailingLine = .ok
      { clientSource := "a".toList, clientId := "b".toList, userId := "c".toList,
        timestamp := "t".toList,
        httpRequestMethod := "GET".toList, requestUri := "/x".toList,
        httpVersion := "HTTP/1.1".toList, httpStatusCode := 200, responseSize := -5 } ∧
      ¬(0 ≤ (-5 : Int)) := by
  decide

/-- Claim C2 (amended): every record produced by a successful parse carries
`responseSize = atoi(size field)`; a size field of exactly `"-"` maps to `0`,
and the size is non-negative unless the size field itself contains a minus
sign (the textual fields are always defined values and `statusCode` is always
an integer by construction of the record). -/
theorem c2_parse_size_invariant (line : Str) (c : Connection)
    (h : parseConnectionFromLine line = .ok c) :
    c.responseSize = cppAtoi (sizeField line) ∧
      (sizeField line = ['-'] → c.responseSize = 0) ∧
      (c.responseSize < 0 → '-' ∈ sizeField line) := by
  obtain ⟨hsize, _⟩ := parse_ok_fields line c h
  refine ⟨hsize, ?_, ?_⟩
  · intro hs
    rw [hsize, hs]
    decide
  · intro hneg
    rw [hsize] at hneg
    exact cppAtoi_neg_mem _ hneg

/-- Witness for the amended C2 at the example line. -/
theorem c2_parse_size_invariant_witness :
    exampleRecord.responseSize = cppAtoi (sizeField exampleLine) ∧
      (sizeField exampleLine = ['-'] → exampleRecord.responseSize = 0) ∧
      (exampleRecord.responseSize < 0 → '-' ∈ sizeField exampleLine) :=
  c2_parse_size_invariant exampleLine exampleRecord (by decide)

/-- Claim C3, refuted as stated: feeding the aggregator the sources `b` then
`a` (discovery order `[b, a]`) renders the tables in the `std::map`'s sorted
key order `[a, b]`, not in first-seen order. -/
theorem c3_discovery_order_counterexample :
    renderOrder (mainTotalConnections [[lineSrcB, lineSrcA]]) = ["a".toList, "b".toList] ∧
      renderOrder (mainTotalConnections [[lineSrcB, lineSrcA]]) ≠ ["b".toList, "a".toList] := by
  decide

/-- Claim C3 (amended): the report emits one table per unique clientSource in
strictly ascending lexicographic order of the source string — the iteration
order of `std::map` — regardless of the order in which the aggregator first
saw the sources. -/
theorem c3_render_order_sorted (files : List (List Str)) :
    (renderOrder (mainTotalConnections files)).Pairwise (fun x y => strLt x y = true) := by
  have h := mainTotalConnections_sorted files
  unfold renderOrder
  exact List.Pairwise.map Prod.fst (fun p q hpq => hpq) h

/-- Claim C4, evaluated on the code at a failing input: merging
`{"c": [r200, r204]}` with `{"c": [r301]}` yields the sequence
`[r200, r301, r204]` — the incoming records are placed before the last
existing record (`insert(end() - 1, …)`), not after all of them as the claim
requires (`[r200, r204, r301]`). -/
theorem c4_merge_inserts_before_last :
    mergeMaps [("c".toList, [sampleConn "c".toList 200, sampleConn "c".toList 204])]
        [("c".toList, [sampleConn "c".toList 301])]
      = [("c".toList,
          [sampleConn "c".toList 200, sampleConn "c".toList 301, sampleConn "c".toList 204])] ∧
      [sampleConn "c".toList 200, sampleConn "c".toList 301, sampleConn "c".toList 204]
        ≠ [sampleConn "c".toList 200, sampleConn "c".toList 204, sampleConn "c".toList 301] := by
  decide

/-- Claim C5: `merge` is associative and commutative on the per-client
status-code counters, for duplicate-free key sets (the `std::map` invariant):
the counters of `merge(merge(a,b),c)` and `merge(a,merge(b,c))` agree, as do
those of `merge(a,b)` and `merge(b,a)`, for every client and status code. -/
theorem c5_merge_counters_assoc_comm (a b c : GroupMap)
    (ha : (a.map Prod.fst).Nodup) (hb : (b.map Prod.fst).Nodup)
    (hc : (c.map Prod.fst).Nodup) :
    (∀ (k : Str) (code : Int),
        counters (mergeMaps (mergeMaps a b) c) k code
          = counters (mergeMaps a (mergeMaps b c)) k code) ∧
      (∀ (k : Str) (code : Int),
        counters (mergeMaps a b) k code = counters (mergeMaps b a) k code) := by
  constructor
  · intro k code
    rw [counters_mergeMaps c (mergeMaps a b) hc k code,
      counters_mergeMaps b a hb k code,
      counters_mergeMaps (mergeMaps b c) a (mergeMaps_keys_nodup c b hb) k code,
      counters_mergeMaps c b hc k code]
    omega
  · intro k code
    rw [counters_mergeMaps b a hb k code, counters_mergeMaps a b ha k code]
    omega

/-- Witness for C5 at concrete maps. -/
theorem c5_merge_counters_assoc_comm_witness :
    counters
        (mergeMaps (mergeMaps [("x".toList, [sampleConn "x".toList 200])]
            [("x".toList, [sampleConn "x".toList 404])])
          [("y".toList, [sampleConn "y".toList 200])]) "x".toList 200
      = counters
          (mergeMaps [("x".toList, [sampleConn "x".toList 200])]
            (mergeMaps [("x".toList, [sampleConn "x".toList 404])]
              [("y".toList, [sampleConn "y".toList 200])])) "x".toList 200 ∧
      counters
          (mergeMaps [("x".toList, [sampleConn "x".toList 200])]
            [("x".toList, [sampleConn "x".toList 404])]) "x".toList 200
        = counters
            (mergeMaps [("x".toList, [sampleConn "x".toList 404])]
              [("x".toList, [sampleConn "x".toList 200])]) "x".toList 200 :=
  ⟨(c5_merge_counters_assoc_comm [("x".toList, [sampleConn "x".toList 200])]
      [("x".toList, [sampleConn "x".toList 404])] [("y".toList, [sampleConn "y".toList 200])]
      (by decide) (by decide) (by decide)).1 "x".toList 200,
    (c5_merge_counters_assoc_comm [("x".toList, [sampleConn "x".toList 200])]
      [("x".toList, [sampleConn "x".toList 404])] [("y".toList, [sampleConn "y".toList 200])]
      (by decide) (by decide) (by decide)).2 "x".toList 200⟩

/-- Claim C6, refuted as stated: the nine counters are `uint32_t` and wrap at
`2 ^ 32` (defined unsigned behaviour).  Aggregating `2 ^ 32` records of one
source, all with status code 200, yields the single group the claim requires,
but the rendered 200-counter is `0` while the number of matching records is
`2 ^ 32`, so the counter does not equal the count. -/
theorem c6_uint32_wrap_counterexample :
    groupRecords (List.replicate (2 ^ 32) (sampleConn "a".toList 200))
        = [("a".toList, List.replicate (2 ^ 32) (sampleConn "a".toList 200))] ∧
      getTally (tallyRecords (List.replicate (2 ^ 32) (sampleConn "a".toList 200))) 200 = 0 ∧
      countHttpResults (List.replicate (2 ^ 32) (sampleConn "a".toList 200)) 200 = 2 ^ 32 ∧
      (0 : Nat) ≠ 2 ^ 32 := by
  have hne : List.replicate (2 ^ 32) (sampleConn "a".toList 200) ≠ [] := by
    intro he
    have hlen := congrArg List.length he
    rw [List.length_replicate] at hlen
    norm_num at hlen
  have hcnt : countHttpResults (List.replicate (2 ^ 32) (sampleConn "a".toList 200)) 200
      = 2 ^ 32 := countHttpResults_replicate (2 ^ 32) (sampleConn "a".toList 200) 200 rfl
  refine ⟨?_, ?_, hcnt, by norm_num⟩
  · refine groupRecords_single_source _ "a".toList hne ?_
    intro c hc
    rw [List.eq_of_mem_replicate hc]
    rfl
  · rw [getTally_tallyRecords _ 200 (by decide), hcnt, Nat.mod_self]

/-- Claim C6 (amended): aggregating a non-empty sequence of parsed records
that all share one clientSource yields exactly one group containing exactly
that record sequence (hence of the same length), and for each tracked status
code the rendered `uint32_t` counter equals the number of records carrying
that code reduced modulo `2 ^ 32` — in particular the exact count whenever
fewer than `2 ^ 32` records were aggregated; records with untracked codes
stay in the sequence but are tallied nowhere. -/
theorem c6_single_source_aggregation (records : List Connection) (s : Str)
    (hne : records ≠ []) (hsrc : ∀ c ∈ records, c.clientSource = s) :
    groupRecords records = [(s, records)] ∧
      (∀ code ∈ trackedCodes,
        getTally (tallyRecords records) code
          = countHttpResults records code % 2 ^ 32) ∧
      (records.length < 2 ^ 32 → ∀ code ∈ trackedCodes,
        getTally (tallyRecords records) code = countHttpResults records code) := by
  refine ⟨groupRecords_single_source records s hne hsrc, ?_, ?_⟩
  · intro code hcode
    exact getTally_tallyRecords records code hcode
  · intro hlen code hcode
    have hle : countHttpResults records code ≤ records.length :=
      List.countP_le_length _
    rw [getTally_tallyRecords records code hcode]
    exact Nat.mod_eq_of_lt (lt_of_le_of_lt hle hlen)

/-- Witness for the amended C6: two records of source `a`, one tracked (200)
and one untracked (302). -/
theorem c6_single_source_aggregation_witness :
    groupRecords [sampleConn "a".toList 200, sampleConn "a".toList 302]
        = [("a".toList, [sampleConn "a".toList 200, sampleConn "a".toList 302])] ∧
      getTally (tallyRecords [sampleConn "a".toList 200, sampleConn "a".toList 302]) 200
        = countHttpResults [sampleConn "a".toList 200, sampleConn "a".toList 302] 200 % 2 ^ 32 ∧
      getTally (tallyRecords [sampleConn "a".toList 200, sampleConn "a".toList 302]) 200
        = countHttpResults [sampleConn "a".toList 200, sampleConn "a".toList 302] 200 :=
  ⟨(c6_single_source_aggregation [sampleConn "a".toList 200, sampleConn "a".toList 302]
      "a".toList (by decide) (by decide)).1,
    (c6_single_source_aggregation [sampleConn "a".toList 200, sampleConn "a".toList 302]
      "a".toList (by decide) (by decide)).2.1 200 (by decide),
    (c6_single_source_aggregation [sampleConn "a".toList 200, sampleConn "a".toList 302]
      "a".toList (by decide) (by decide)).2.2 (by decide) 200 (by decide)⟩

/-- Claim C7: in every rendered data row, each of the nine count columns is
exactly 11 characters wide, with pad-left `⌊(11 − len)/2⌋` and pad-right
`11 − pad-left − len` (whenever the count's decimal text fits the column,
which holds for every `uint32_t` counter, whose text has at most 10 digits). -/
theorem c7_count_columns (records : List Connection) (n : Nat)
    (_hn : n ∈ nineCounts records) (hlen : (natChars n).length ≤ 11) :
    (countCell n).length = 11 ∧
      (getSpacerStrings 11 (natChars n)).1.length = (11 - (natChars n).length) / 2 ∧
      (getSpacerStrings 11 (natChars n)).2.length
        = 11 - (11 - (natChars n).length) / 2 - (natChars n).length := by
  refine ⟨?_, ?_, ?_⟩ <;>
    · simp only [countCell, getSpacerStrings, List.length_append, List.length_replicate]
      omega

/-- Witness for C7 at a one-record group whose 200-counter is 1. -/
theorem c7_count_columns_witness :
    (countCell 1).length = 11 ∧
      (getSpacerStrings 11 (natChars 1)).1.length = (11 - (natChars 1).length) / 2 ∧
      (getSpacerStrings 11 (natChars 1)).2.length
        = 11 - (11 - (natChars 1).length) / 2 - (natChars 1).length :=
  c7_count_columns [sampleConn "a".toList 200] 1 (by decide) (by decide)

/-- Claim C8, refuted as stated: an 81-character client source yields a source
column of width 81 — `printUniqueIpStats` never consults the 80-column cap of
the (uncalled) `getLongestClientSource`, so the claimed
`min(max(header, len), 80)` formula fails beyond 80 columns. -/
theorem c8_width_cap_counterexample :
    sourceColumnWidth (List.replicate 81 'x') = 81 ∧
      claimedSourceWidth (List.replicate 81 'x') = 80 ∧
      sourceColumnWidth (List.replicate 81 'x')
        ≠ claimedSourceWidth (List.replicate 81 'x') := by
  decide

/-- Claim C8 (amended): a clientSource no longer than the header label
`Source` gets the default column width of header length + 2 (= 8), and a
longer source widens the column to exactly the raw source length, with no
upper cap. -/
theorem c8_source_column_width (src : Str) :
    sourceColumnWidth src
      = if HEADER_CLIENT_SRC.length < src.length then src.length
        else HEADER_CLIENT_SRC.length + 2 := by
  have h6 : HEADER_CLIENT_SRC.length = 6 := by decide
  simp only [sourceColumnWidth, headerSepStrings]
  by_cases h : HEADER_CLIENT_SRC.length < src.length
  · rw [if_pos h, if_pos h]
    simp only [getSpacerStrings, List.length_replicate, h6]
    rw [h6] at h
    omega
  · rw [if_neg h, if_neg h]
    decide

/-- Claim C9: the `line.empty()` guard of `getConnectionAttempts` skips an
empty line before any parsing: the mapping is returned unchanged and the
iteration's outcome is neither a parsed record nor a parse failure. -/
theorem c9_empty_line_skipped (m : GroupMap) :
    lineStep m [] = (m, LineOutcome.skippedEmpty) := by
  simp [lineStep]

/-- Claim C10: whenever the centred text is no longer than the column width,
the two spacer strings of `getSpacerStrings` pad it to exactly the declared
width. -/
theorem c10_spacer_width (w : Nat) (s : Str) (h : s.length ≤ w) :
    (getSpacerStrings w s).1.length + s.length + (getSpacerStrings w s).2.length = w := by
  simp only [getSpacerStrings, List.length_replicate]
  omega

/-- Witness for C10 at width 11 and text `7`. -/
theorem c10_spacer_width_witness :
    (getSpacerStrings 11 "7".toList).1.length + "7".toList.length +
        (getSpacerStrings 11 "7".toList).2.length = 11 :=
  c10_spacer_width 11 "7".toList (by decide)
